import Mathlib

/-!
Verification of the C-Note encrypted note store (src/note.py).

Shallow embedding conventions:
* Time instants are integers counting microseconds (Python `datetime` has
  microsecond resolution; `timedelta.total_seconds()` compared against the
  integer timeout `S` seconds becomes `now - t < S * 1000000`).
* The password hash function (`hash_password`, a SHA-256 hex digest in the
  source) is passed as an abstract parameter `hp : String → String`: every
  claim only tests hash values for equality.
* File-system effects are made explicit: a file's possible states are an
  inductive type and functions return the value read / the value written.
* Fallible Python code (exceptions) is embedded with `Option` / `Except`.
-/

/-- The configuration dictionary after `load_config` (all three keys present).
Mirrors the keys of `default_config` in src/note.py. -/
structure Config where
  password_protected : Bool
  password_hash : String
  password_timeout : Int
deriving DecidableEq, Repr

/-- Embedding of `default_config`, src/note.py lines 22-26: protection off, no password,
timeout 60 seconds. -/
def default_config : Config :=
  { password_protected := false, password_hash := "", password_timeout := 60 }

/-- A parsed config document: each of the three known keys may be missing. -/
structure RawConfig where
  password_protected : Option Bool
  password_hash : Option String
  password_timeout : Option Int
deriving DecidableEq, Repr

/-- The possible states of the config file as observed by `load_config`:
missing, present but not parsable as JSON, or parsed into a record. -/
inductive ConfigFile where
  | absent : ConfigFile
  | unparsable : ConfigFile
  | parsed : RawConfig → ConfigFile
deriving DecidableEq, Repr

/-- Embedding of `load_config`, src/note.py lines 17-37: a missing file returns the
defaults, a parse failure is caught and returns the defaults, and a parsed
record is completed key-by-key with the default of each missing key. -/
def load_config : ConfigFile → Config
  | ConfigFile.absent => default_config
  | ConfigFile.unparsable => default_config
  | ConfigFile.parsed rc =>
    { password_protected := rc.password_protected.getD default_config.password_protected,
      password_hash := rc.password_hash.getD default_config.password_hash,
      password_timeout := rc.password_timeout.getD default_config.password_timeout }

/-- Embedding of `is_password_valid`, src/note.py lines 542-550.  `last` is
`self.last_password_entry` (`none` = no successful entry in this process),
`now` the current time in microseconds. -/
def is_password_valid (cfg : Config) (last : Option Int) (now : Int) : Bool :=
  if !cfg.password_protected then
    true
  else
    match last with
    | some t =>
      if now - t < cfg.password_timeout * 1000000 then true else false
    | none => false

/-- Result of `check_password` of src/note.py: the returned Bool, whether the
"Incorrect Password" warning box was shown, and the state fields it can touch
(`self.config` is only read, `self.last_password_entry` may be written). -/
structure CheckResult where
  ok : Bool
  warnedIncorrect : Bool
  config : Config
  last_password_entry : Option Int
deriving DecidableEq, Repr

/-- Embedding of `check_password`, src/note.py lines 552-568.  `dlg` is the password
dialog outcome: `none` when the dialog is cancelled, `some pwd` when the user
enters `pwd` and accepts. -/
def check_password (hp : String → String) (cfg : Config) (last : Option Int)
    (now : Int) (dlg : Option String) : CheckResult :=
  if is_password_valid cfg last now then
    { ok := true, warnedIncorrect := false, config := cfg, last_password_entry := last }
  else
    match dlg with
    | some pwd =>
      if hp pwd = cfg.password_hash then
        { ok := true, warnedIncorrect := false, config := cfg, last_password_entry := some now }
      else
        { ok := false, warnedIncorrect := true, config := cfg, last_password_entry := last }
    | none =>
      { ok := false, warnedIncorrect := false, config := cfg, last_password_entry := last }

/-- C1: `is_password_valid` returns true iff password protection is off, or a
successful password entry happened at some time `t` and the query time `now`
is strictly before `t` plus the configured timeout (seconds scaled to the
microsecond time axis).  In particular with protection off it is always true;
with protection on it is false when no entry happened and at every
`now ≥ t + timeout`. -/
theorem is_password_valid_iff (cfg : Config) (last : Option Int) (now : Int) :
    is_password_valid cfg last now = true ↔
      (cfg.password_protected = false ∨
        ∃ t, last = some t ∧ now < t + cfg.password_timeout * 1000000) := by
  unfold is_password_valid
  cases hp : cfg.password_protected with
  | false =>
    simp
  | true =>
    cases last with
    | none => simp
    | some t =>
      by_cases h : now - t < cfg.password_timeout * 1000000
      · simp [h]
        omega
      · simp [h]
        omega

/-- C5: `load_config` never fails: a missing or unparsable file yields exactly
the defaults `{password_protected := false, password_hash := "",
password_timeout := 60}`, and a parsed record is completed key-by-key with the
default value of each missing key. -/
theorem load_config_total_with_defaults :
    load_config ConfigFile.absent = default_config ∧
    load_config ConfigFile.unparsable = default_config ∧
    (∀ rc : RawConfig,
      load_config (ConfigFile.parsed rc) =
        { password_protected := rc.password_protected.getD false,
          password_hash := rc.password_hash.getD "",
          password_timeout := rc.password_timeout.getD 60 }) ∧
    default_config =
      { password_protected := false, password_hash := "", password_timeout := 60 } := by
  refine ⟨rfl, rfl, ?_, rfl⟩
  intro rc
  rfl

/-- Outcome of `onChangePasswordClicked` of src/note.py lines 649-673, with
all dialogs accepted (cancellation paths just return with nothing changed). -/
inductive ChangeOutcome where
  | wrongOldPassword : ChangeOutcome
  | emptyNewPassword : ChangeOutcome
  | mismatch : ChangeOutcome
  | success : ChangeOutcome
deriving DecidableEq, Repr

/-- Embedding of `onChangePasswordClicked`, src/note.py lines 649-673, with every dialog
accepted and entries `old`, `newPwd`, `confirmPwd`: if a hash is stored, a
wrong current password warns and changes nothing; an empty new password
returns silently; a confirm mismatch warns and changes nothing; otherwise the
hash is replaced by `hp newPwd` and `password_protected` is forced to true. -/
def onChangePasswordClicked (hp : String → String) (cfg : Config)
    (old newPwd confirmPwd : String) : Config × ChangeOutcome :=
  if cfg.password_hash ≠ "" ∧ hp old ≠ cfg.password_hash then
    (cfg, ChangeOutcome.wrongOldPassword)
  else if newPwd = "" then
    (cfg, ChangeOutcome.emptyNewPassword)
  else if newPwd ≠ confirmPwd then
    (cfg, ChangeOutcome.mismatch)
  else
    ({ cfg with password_hash := hp newPwd, password_protected := true },
      ChangeOutcome.success)

/-- Result of `onPasswordProtectionToggled` of src/note.py lines 625-647:
the config after the call, the final checked state of the toggle button,
whether `save_config` ran, and whether a password dialog was shown. -/
structure ToggleResult where
  config : Config
  toggleChecked : Bool
  saved : Bool
  prompted : Bool
deriving DecidableEq, Repr

/-- Embedding of `onPasswordProtectionToggled`, src/note.py lines 625-647.  `dlg` and
`confirmDlg` are the two password dialogs (`none` = cancelled).  Disabling
just clears the flag and saves.  Enabling with a stored hash prompts for
nothing.  Enabling with no stored hash prompts; an empty or mismatched entry
resets the toggle and returns without saving.  (When the confirm dialog is
cancelled the source falls through and enables protection without setting a
hash — modelled faithfully.) -/
def onPasswordProtectionToggled (hp : String → String) (cfg : Config)
    (checked : Bool) (dlg confirmDlg : Option String) : ToggleResult :=
  if checked then
    if cfg.password_hash = "" then
      match dlg with
      | none =>
        { config := cfg, toggleChecked := false, saved := false, prompted := true }
      | some pwd =>
        if pwd = "" then
          { config := cfg, toggleChecked := false, saved := false, prompted := true }
        else
          match confirmDlg with
          | none =>
            { config := { cfg with password_protected := true },
              toggleChecked := true, saved := true, prompted := true }
          | some c =>
            if pwd ≠ c then
              { config := cfg, toggleChecked := false, saved := false, prompted := true }
            else
              { config := { cfg with password_hash := hp pwd, password_protected := true },
                toggleChecked := true, saved := true, prompted := true }
    else
      { config := { cfg with password_protected := true },
        toggleChecked := true, saved := true, prompted := false }
  else
    { config := { cfg with password_protected := false },
      toggleChecked := false, saved := true, prompted := false }

/-- C2: while locked (`is_password_valid` is false), a submitted attempt whose
hash equals the stored `password_hash` sets `last_password_entry := now` and
succeeds — after which authorization holds at every query time strictly
before `now + password_timeout`; a non-matching attempt fails with the
distinguishable incorrect-password warning and leaves both
`last_password_entry` and the config unchanged. -/
theorem check_password_locked (hp : String → String) (cfg : Config)
    (last : Option Int) (now : Int) (attempt : String)
    (hlocked : is_password_valid cfg last now = false) :
    (hp attempt = cfg.password_hash →
      check_password hp cfg last now (some attempt) =
        { ok := true, warnedIncorrect := false, config := cfg,
          last_password_entry := some now } ∧
      ∀ q : Int, q < now + cfg.password_timeout * 1000000 → now ≤ q →
        is_password_valid cfg (some now) q = true) ∧
    (hp attempt ≠ cfg.password_hash →
      check_password hp cfg last now (some attempt) =
        { ok := false, warnedIncorrect := true, config := cfg,
          last_password_entry := last }) := by
  constructor
  · intro hmatch
    constructor
    · simp [check_password, hlocked, hmatch]
    · intro q hq _
      rw [is_password_valid_iff]
      right
      exact ⟨now, rfl, by omega⟩
  · intro hmiss
    simp [check_password, hlocked, hmiss]

/-- A concrete protected config used by witnesses, with the stored hash being
the image of "pw" under the concrete hash function `tagHash`. -/
def cfgProtected : Config :=
  { password_protected := true, password_hash := "h:pw", password_timeout := 60 }

/-- A concrete stand-in hash function for witnesses. -/
def tagHash (s : String) : String := "h:" ++ s

/-- C2 witness: concrete locked state, one matching and one failing attempt. -/
theorem check_password_locked_witness :
    is_password_valid cfgProtected none 0 = false ∧
    check_password tagHash cfgProtected none 0 (some "pw") =
      { ok := true, warnedIncorrect := false, config := cfgProtected,
        last_password_entry := some 0 } ∧
    check_password tagHash cfgProtected none 0 (some "wrong") =
      { ok := false, warnedIncorrect := true, config := cfgProtected,
        last_password_entry := none } := by
  refine ⟨by decide, ?_, ?_⟩
  · exact ((check_password_locked tagHash cfgProtected none 0 "pw"
      (by decide)).1 (by decide)).1
  · exact (check_password_locked tagHash cfgProtected none 0 "wrong"
      (by decide)).2 (by decide)

/-- C6 counterexample: with a stored hash, the correct old password and
matching (empty) new/confirm entries, the source returns at
`if result == QDialog.Rejected or not new_dlg.get_password()` without storing
`hp ""` — the claim's success branch fails for an empty new password. -/
theorem onChangePasswordClicked_empty_counterexample :
    onChangePasswordClicked tagHash cfgProtected "pw" "" "" =
      (cfgProtected, ChangeOutcome.emptyNewPassword) ∧
    tagHash "pw" = cfgProtected.password_hash ∧
    (onChangePasswordClicked tagHash cfgProtected "pw" "" "").1.password_hash ≠
      tagHash "" := by
  decide

/-- C6 (amended to require a non-empty new password): with a stored hash, the
correct old password, a non-empty new password and a matching confirm entry,
the hash becomes `hp newPwd` and `password_protected` is forced to true; with
a wrong old password the config is returned unchanged together with the
distinguishable wrong-password outcome. -/
theorem onChangePasswordClicked_spec (hp : String → String) (cfg : Config)
    (old newPwd confirmPwd : String) (hstored : cfg.password_hash ≠ "") :
    (hp old = cfg.password_hash → newPwd ≠ "" → newPwd = confirmPwd →
      onChangePasswordClicked hp cfg old newPwd confirmPwd =
        ({ cfg with password_hash := hp newPwd, password_protected := true },
          ChangeOutcome.success)) ∧
    (hp old ≠ cfg.password_hash →
      onChangePasswordClicked hp cfg old newPwd confirmPwd =
        (cfg, ChangeOutcome.wrongOldPassword)) := by
  constructor
  · intro hold hnew hconf
    subst hconf
    simp [onChangePasswordClicked, hold, hnew]
  · intro hold
    simp [onChangePasswordClicked, hstored, hold]

/-- C6 witness: concrete change with correct old password and a wrong one. -/
theorem onChangePasswordClicked_spec_witness :
    cfgProtected.password_hash ≠ "" ∧
    onChangePasswordClicked tagHash cfgProtected "pw" "new" "new" =
      ({ cfgProtected with
          password_hash := tagHash "new",
          password_protected := true }, ChangeOutcome.success) ∧
    onChangePasswordClicked tagHash cfgProtected "oops" "new" "new" =
      (cfgProtected, ChangeOutcome.wrongOldPassword) := by
  refine ⟨by decide, ?_, ?_⟩
  · exact (onChangePasswordClicked_spec tagHash cfgProtected "pw" "new" "new"
      (by decide)).1 (by decide) (by decide) rfl
  · exact (onChangePasswordClicked_spec tagHash cfgProtected "oops" "new" "new"
      (by decide)).2 (by decide)

/-- C7: disabling password protection only clears `password_protected` and
saves: `password_hash` and `password_timeout` are unchanged (the hash is
retained, not erased); consequently re-enabling protection while a hash is
stored shows no password dialog and keeps the stored hash. -/
theorem onPasswordProtectionToggled_disable_retains (hp : String → String)
    (cfg : Config) (dlg confirmDlg : Option String) :
    (onPasswordProtectionToggled hp cfg false dlg confirmDlg =
      { config := { cfg with password_protected := false },
        toggleChecked := false, saved := true, prompted := false }) ∧
    ((onPasswordProtectionToggled hp cfg false dlg confirmDlg).config.password_hash =
      cfg.password_hash) ∧
    ((onPasswordProtectionToggled hp cfg false dlg confirmDlg).config.password_timeout =
      cfg.password_timeout) ∧
    (cfg.password_hash ≠ "" →
      onPasswordProtectionToggled hp { cfg with password_protected := false }
          true dlg confirmDlg =
        { config := { cfg with password_protected := true },
          toggleChecked := true, saved := true, prompted := false }) := by
  refine ⟨rfl, rfl, rfl, ?_⟩
  intro h
  simp [onPasswordProtectionToggled, h]

/-- C7 witness: disable then re-enable on a concrete config with a stored
hash; no prompt is shown and the hash survives. -/
theorem onPasswordProtectionToggled_disable_retains_witness :
    cfgProtected.password_hash ≠ "" ∧
    onPasswordProtectionToggled tagHash cfgProtected false none none =
      { config := { cfgProtected with password_protected := false },
        toggleChecked := false, saved := true, prompted := false } ∧
    onPasswordProtectionToggled tagHash
        { cfgProtected with password_protected := false } true none none =
      { config := { cfgProtected with password_protected := true },
        toggleChecked := true, saved := true, prompted := false } := by
  refine ⟨by decide, ?_, ?_⟩
  · exact (onPasswordProtectionToggled_disable_retains tagHash cfgProtected
      none none).1
  · exact (onPasswordProtectionToggled_disable_retains tagHash cfgProtected
      none none).2.2.2 (by decide)

/-- A Fernet token as produced by `encrypt_text`.  `nonce` is the random IV
embedded in the token, `keyTag` binds the token to the key it was produced
under (decryption under any other key fails authentication), `payload` the
encrypted character codes. -/
structure FernetToken where
  nonce : Nat
  keyTag : Nat
  payload : List Nat
deriving DecidableEq, Repr

/-- Modelled from the spec: the Fernet cipher of the `cryptography` library is
not part of this repository; §4.2 describes it as authenticated symmetric
encryption whose token embeds a fresh random nonce.  `encrypt_text` of
src/note.py lines 262-264 encrypts a string under `self.key`; the library's
random nonce is the explicit parameter `nonce`. -/
def encrypt_text (key nonce : Nat) (text : String) : FernetToken :=
  { nonce := nonce, keyTag := key,
    payload := text.data.map (fun c => c.toNat + nonce) }

/-- Modelled from the spec: counterpart of `encrypt_text`; `decrypt_text` of
src/note.py lines 266-268.  Decryption fails (the source raises, embedded as
`none`) when the token does not authenticate under `key`. -/
def decrypt_text (key : Nat) (tok : FernetToken) : Option String :=
  if tok.keyTag = key then
    some (String.mk (tok.payload.map (fun n => Char.ofNat (n - tok.nonce))))
  else
    none

/-- C3: for every plaintext string — the empty string included — and every
nonce, decrypting the encryption of the string under the same key returns
exactly the original string. -/
theorem decrypt_encrypt_roundtrip (key nonce : Nat) (p : String) :
    decrypt_text key (encrypt_text key nonce p) = some p := by
  simp only [encrypt_text, decrypt_text, if_pos rfl, List.map_map]
  have h : (fun n => Char.ofNat (n - nonce)) ∘ (fun c : Char => c.toNat + nonce) = id := by
    funext c
    simp [Char.ofNat_toNat]
  rw [h, List.map_id]
  cases p
  rfl

/-- The possible states of the "secret.key" file as observed by `load_key`:
missing (`open` raises `FileNotFoundError`), present with some bytes, or
present but unreadable (`open`/`read` raises some other `OSError`). -/
inductive KeyFile where
  | absent : KeyFile
  | present : List Nat → KeyFile
  | unreadable : KeyFile
deriving DecidableEq, Repr

/-- Embedding of `load_key`, src/note.py lines 48-60: read and return the bytes of
"secret.key"; only `FileNotFoundError` is caught, in which case a fresh key
(`fresh`, the value `Fernet.generate_key()` returns) is written to the file
and returned; any other read error propagates out of startup.  The result
pairs the returned key with the state of the key file after the call. -/
def load_key (file : KeyFile) (fresh : List Nat) : Except Unit (List Nat × KeyFile) :=
  match file with
  | KeyFile.present bytes => Except.ok (bytes, KeyFile.present bytes)
  | KeyFile.absent => Except.ok (fresh, KeyFile.present fresh)
  | KeyFile.unreadable => Except.error ()

/-- C4: `load_key` generates and persists the fresh key exactly when the key
file is absent; an existing file's bytes are returned unchanged with the file
untouched; an unreadable file surfaces an error instead of silently
regenerating a key.  The three equations cover every key-file state, so
regeneration happens if and only if the file is absent. -/
theorem load_key_spec (fresh : List Nat) :
    (∀ bytes, load_key (KeyFile.present bytes) fresh =
      Except.ok (bytes, KeyFile.present bytes)) ∧
    load_key KeyFile.absent fresh = Except.ok (fresh, KeyFile.present fresh) ∧
    load_key KeyFile.unreadable fresh = Except.error () := by
  exact ⟨fun _ => rfl, rfl, rfl⟩

/-- A Python `datetime.datetime` value (naive, microsecond resolution), as
stored in note records. -/
structure DateTime where
  year : Nat
  month : Nat
  day : Nat
  hour : Nat
  minute : Nat
  second : Nat
  microsecond : Nat
deriving DecidableEq, Repr

/-- Gregorian leap-year rule, as used by Python's `datetime` validation. -/
def isLeap (y : Nat) : Bool :=
  y % 4 == 0 && (y % 100 != 0 || y % 400 == 0)

/-- Number of days of month `m` of year `y` (Python `calendar` rule). -/
def daysInMonth (y m : Nat) : Nat :=
  if m = 2 then (if isLeap y then 29 else 28)
  else if m = 4 ∨ m = 6 ∨ m = 9 ∨ m = 11 then 30
  else 31

/-- The field ranges `datetime.datetime` accepts; `fromisoformat` raises on a
string whose fields violate them. -/
def validDT (d : DateTime) : Bool :=
  decide (1 ≤ d.year) && decide (d.year ≤ 9999) &&
  decide (1 ≤ d.month) && decide (d.month ≤ 12) &&
  decide (1 ≤ d.day) && decide (d.day ≤ daysInMonth d.year d.month) &&
  decide (d.hour ≤ 23) && decide (d.minute ≤ 59) && decide (d.second ≤ 59) &&
  decide (d.microsecond ≤ 999999)

/-- The decimal digit character for `n` (meaningful for `n < 10`). -/
def digitChar (n : Nat) : Char := Char.ofNat (48 + n)

/-- Number `n` printed in decimal, zero-padded to exactly `w` digits (the `%04d`
style formatting `datetime.isoformat` uses for each field). -/
def padNum : Nat → Nat → List Char
  | 0, _ => []
  | w + 1, n => padNum w (n / 10) ++ [digitChar (n % 10)]

/-- Embedding of `datetime.isoformat()` with the default separator and `timespec="auto"`:
`YYYY-MM-DDTHH:MM:SS`, extended by `.ffffff` exactly when the microsecond
field is non-zero.  This is the serialization `save_notes_to_file`
(src/note.py line 72-73) applies to the `created`/`updated` fields. -/
def isoformat (d : DateTime) : String :=
  String.mk (padNum 4 d.year ++ '-' :: padNum 2 d.month ++ '-' :: padNum 2 d.day ++
    'T' :: padNum 2 d.hour ++ ':' :: padNum 2 d.minute ++ ':' :: padNum 2 d.second ++
    (if d.microsecond = 0 then [] else '.' :: padNum 6 d.microsecond))

/-- The numeric value of a digit string (meaningful when all characters are
decimal digits). -/
def digitsToNat (l : List Char) : Nat :=
  l.foldl (fun a c => 10 * a + (c.toNat - 48)) 0

/-- Parse exactly `w` decimal digits from the front of `l`; fail if fewer than
`w` characters remain or any of them is not a digit. -/
def takeNum (w : Nat) (l : List Char) : Option (Nat × List Char) :=
  if (l.take w).length = w ∧ (l.take w).all Char.isDigit = true then
    some (digitsToNat (l.take w), l.drop w)
  else none

/-- Require the next character to be `c`. -/
def expectChar (c : Char) : List Char → Option (List Char)
  | [] => none
  | x :: xs => if x = c then some xs else none

/-- Parse the optional fractional-seconds tail: empty, or a dot followed by
exactly six digits (the only fractional form `isoformat` emits). -/
def parseMicro : List Char → Option Nat
  | [] => some 0
  | '.' :: rest =>
    match takeNum 6 rest with
    | some (f, []) => some f
    | _ => none
  | _ => none

/-- Embedding of `datetime.datetime.fromisoformat`, restricted to the shapes `isoformat`
emits (`YYYY-MM-DDTHH:MM:SS[.ffffff]`): positional fixed-width digit fields,
with the `datetime` range validation; every other string is rejected
(`ValueError`, embedded as `none`).  Used by `load_notes_from_file`
(src/note.py lines 93-94). -/
def fromisoformat (s : String) : Option DateTime :=
  match takeNum 4 s.data with
  | none => none
  | some (y, l1) =>
    match expectChar '-' l1 with
    | none => none
    | some l2 =>
      match takeNum 2 l2 with
      | none => none
      | some (mo, l3) =>
        match expectChar '-' l3 with
        | none => none
        | some l4 =>
          match takeNum 2 l4 with
          | none => none
          | some (da, l5) =>
            match expectChar 'T' l5 with
            | none => none
            | some l6 =>
              match takeNum 2 l6 with
              | none => none
              | some (ho, l7) =>
                match expectChar ':' l7 with
                | none => none
                | some l8 =>
                  match takeNum 2 l8 with
                  | none => none
                  | some (mi, l9) =>
                    match expectChar ':' l9 with
                    | none => none
                    | some l10 =>
                      match takeNum 2 l10 with
                      | none => none
                      | some (se, l11) =>
                        match parseMicro l11 with
                        | none => none
                        | some mic =>
                          let d : DateTime :=
                            { year := y, month := mo, day := da, hour := ho,
                              minute := mi, second := se, microsecond := mic }
                          if validDT d then some d else none

theorem padNum_length (w n : Nat) : (padNum w n).length = w := by
  induction w generalizing n with
  | zero => rfl
  | succ w ih => simp [padNum, ih]

theorem digitChar_isDigit (n : Nat) (h : n < 10) : (digitChar n).isDigit = true := by
  interval_cases n <;> decide

theorem digitChar_toNat (n : Nat) (h : n < 10) : (digitChar n).toNat = 48 + n := by
  interval_cases n <;> decide

theorem padNum_all_isDigit (w n : Nat) : (padNum w n).all Char.isDigit = true := by
  induction w generalizing n with
  | zero => rfl
  | succ w ih =>
    simp only [padNum, List.all_append, ih, Bool.true_and, List.all_cons, List.all_nil,
      Bool.and_true]
    exact digitChar_isDigit _ (Nat.mod_lt _ (by norm_num))

theorem digitsToNat_append_single (l : List Char) (c : Char) :
    digitsToNat (l ++ [c]) = 10 * digitsToNat l + (c.toNat - 48) := by
  unfold digitsToNat
  rw [List.foldl_append]
  rfl

theorem digitsToNat_padNum (w n : Nat) (h : n < 10 ^ w) :
    digitsToNat (padNum w n) = n := by
  induction w generalizing n with
  | zero =>
    simp only [pow_zero, Nat.lt_one_iff] at h
    simp [padNum, digitsToNat, h]
  | succ w ih =>
    have hdiv : n / 10 < 10 ^ w := by
      have hp : 10 ^ (w + 1) = 10 ^ w * 10 := pow_succ 10 w
      rw [hp] at h
      omega
    rw [padNum, digitsToNat_append_single, ih _ hdiv,
      digitChar_toNat _ (Nat.mod_lt _ (by norm_num))]
    omega

theorem takeNum_padNum (w n : Nat) (rest : List Char) (h : n < 10 ^ w) :
    takeNum w (padNum w n ++ rest) = some (n, rest) := by
  have h1 : (padNum w n ++ rest).take w = padNum w n :=
    List.take_left' (padNum_length w n)
  have h2 : (padNum w n ++ rest).drop w = rest :=
    List.drop_left' (padNum_length w n)
  unfold takeNum
  rw [h1, h2, if_pos ⟨padNum_length w n, padNum_all_isDigit w n⟩,
    digitsToNat_padNum w n h]

theorem expectChar_cons (c : Char) (rest : List Char) :
    expectChar c (c :: rest) = some rest := by
  simp [expectChar]

theorem parseMicro_padNum (m : Nat) (h : m < 1000000) :
    parseMicro ('.' :: padNum 6 m) = some m := by
  have h6 : takeNum 6 (padNum 6 m) = some (m, []) := by
    have := takeNum_padNum 6 m [] (by norm_num; omega)
    simpa using this
  simp [parseMicro, h6]

theorem daysInMonth_le (y m : Nat) : daysInMonth y m ≤ 31 := by
  unfold daysInMonth
  split
  · split <;> omega
  · split <;> omega

theorem fromisoformat_isoformat (d : DateTime) (h : validDT d = true) :
    fromisoformat (isoformat d) = some d := by
  simp only [validDT, Bool.and_eq_true, decide_eq_true_eq] at h
  obtain ⟨⟨⟨⟨⟨⟨⟨⟨⟨h1, h2⟩, h3⟩, h4⟩, h5⟩, h6⟩, h7⟩, h8⟩, h9⟩, h10⟩ := h
  have hdm := daysInMonth_le d.year d.month
  have ty : ∀ rest, takeNum 4 (padNum 4 d.year ++ rest) = some (d.year, rest) :=
    fun rest => takeNum_padNum 4 d.year rest (by norm_num; omega)
  have tmo : ∀ rest, takeNum 2 (padNum 2 d.month ++ rest) = some (d.month, rest) :=
    fun rest => takeNum_padNum 2 d.month rest (by norm_num; omega)
  have tda : ∀ rest, takeNum 2 (padNum 2 d.day ++ rest) = some (d.day, rest) :=
    fun rest => takeNum_padNum 2 d.day rest (by norm_num; omega)
  have tho : ∀ rest, takeNum 2 (padNum 2 d.hour ++ rest) = some (d.hour, rest) :=
    fun rest => takeNum_padNum 2 d.hour rest (by norm_num; omega)
  have tmi : ∀ rest, takeNum 2 (padNum 2 d.minute ++ rest) = some (d.minute, rest) :=
    fun rest => takeNum_padNum 2 d.minute rest (by norm_num; omega)
  have tse : ∀ rest, takeNum 2 (padNum 2 d.second ++ rest) = some (d.second, rest) :=
    fun rest => takeNum_padNum 2 d.second rest (by norm_num; omega)
  have tmic : parseMicro (if d.microsecond = 0 then []
      else '.' :: padNum 6 d.microsecond) = some d.microsecond := by
    by_cases hm : d.microsecond = 0
    · simp [hm, parseMicro]
    · rw [if_neg hm]
      exact parseMicro_padNum _ (by omega)
  have hv : validDT d = true := by
    simp only [validDT, Bool.and_eq_true, decide_eq_true_eq]
    exact ⟨⟨⟨⟨⟨⟨⟨⟨⟨h1, h2⟩, h3⟩, h4⟩, h5⟩, h6⟩, h7⟩, h8⟩, h9⟩, h10⟩
  simp only [isoformat, fromisoformat, List.append_assoc, List.cons_append, ty, tmo, tda,
    tho, tmi, tse, expectChar_cons, tmic, hv, if_true]

/-- An in-memory note record as held in `self.notes` (src/note.py lines
69-75 and 714-720). -/
structure Note where
  title : String
  content : String
  created : DateTime
  updated : DateTime
  read_only : Bool
deriving DecidableEq, Repr

/-- A record of the notes JSON document: every field may be missing, and the
timestamps are strings. -/
structure RawNote where
  title : Option String
  content : Option String
  created : Option String
  updated : Option String
  read_only : Option Bool
deriving DecidableEq, Repr

/-- The notes file is either missing or holds a sequence of records. -/
inductive NotesFile where
  | absent : NotesFile
  | document : List RawNote → NotesFile
deriving DecidableEq, Repr

/-- One record of `save_notes_to_file` (src/note.py lines 69-75): all fields
written, timestamps via `isoformat`, `read_only` defaulted from the
in-memory dict (always present in this embedding). -/
def save_note (n : Note) : RawNote :=
  { title := some n.title, content := some n.content,
    created := some (isoformat n.created), updated := some (isoformat n.updated),
    read_only := some n.read_only }

/-- Embedding of `save_notes_to_file`, src/note.py lines 62-77: the document written is
the record list in order. -/
def save_notes_to_file (notes : List Note) : List RawNote :=
  notes.map save_note

/-- The per-record body of the `load_notes_from_file` loop (src/note.py lines
89-96): `note["title"]` etc. raise `KeyError` on a missing key,
`fromisoformat` raises `ValueError` on an unparsable timestamp, and only
`read_only` is read with a default (`note.get("read_only", False)`). -/
def load_note (r : RawNote) : Except String Note :=
  match r.title with
  | none => Except.error "KeyError: title"
  | some t =>
    match r.content with
    | none => Except.error "KeyError: content"
    | some c =>
      match r.created with
      | none => Except.error "KeyError: created"
      | some cs =>
        match fromisoformat cs with
        | none => Except.error "ValueError: created"
        | some cd =>
          match r.updated with
          | none => Except.error "KeyError: updated"
          | some us =>
            match fromisoformat us with
            | none => Except.error "ValueError: updated"
            | some ud =>
              Except.ok ⟨t, c, cd, ud, r.read_only.getD false⟩

/-- The loop of `load_notes_from_file`: records are converted in order and the
first failing record aborts the whole load (the source has no per-record
exception handling). -/
def load_notes_list : List RawNote → Except String (List Note)
  | [] => Except.ok []
  | r :: rs =>
    match load_note r with
    | Except.error e => Except.error e
    | Except.ok n =>
      match load_notes_list rs with
      | Except.error e => Except.error e
      | Except.ok ns => Except.ok (n :: ns)

/-- Embedding of `load_notes_from_file`, src/note.py lines 79-97: a missing file yields
the empty list; otherwise the records are converted in order. -/
def load_notes_from_file : NotesFile → Except String (List Note)
  | NotesFile.absent => Except.ok []
  | NotesFile.document rs => load_notes_list rs

theorem load_note_fields (t c : String) (d1 d2 : DateTime) (ro : Option Bool)
    (h1 : validDT d1 = true) (h2 : validDT d2 = true) :
    load_note ⟨some t, some c, some (isoformat d1), some (isoformat d2), ro⟩ =
      Except.ok ⟨t, c, d1, d2, ro.getD false⟩ := by
  simp [load_note, fromisoformat_isoformat d1 h1, fromisoformat_isoformat d2 h2]

theorem load_note_save_note (n : Note) (h1 : validDT n.created = true)
    (h2 : validDT n.updated = true) :
    load_note (save_note n) = Except.ok n := by
  rw [save_note, load_note_fields n.title n.content n.created n.updated
    (some n.read_only) h1 h2]
  rfl

/-- C8: a note list whose timestamps are valid `datetime` values round-trips
through the document exactly: loading the saved document yields the records
in order with identical titles, contents, timestamps and `read_only` flags —
and therefore any reload serializes to the identical document again. -/
theorem save_load_roundtrip (notes : List Note)
    (h : ∀ n ∈ notes, validDT n.created = true ∧ validDT n.updated = true) :
    load_notes_from_file (NotesFile.document (save_notes_to_file notes)) =
      Except.ok notes ∧
    (∀ ns, load_notes_from_file (NotesFile.document (save_notes_to_file notes)) =
      Except.ok ns → save_notes_to_file ns = save_notes_to_file notes) := by
  have main : load_notes_from_file (NotesFile.document (save_notes_to_file notes)) =
      Except.ok notes := by
    show load_notes_list (notes.map save_note) = Except.ok notes
    induction notes with
    | nil => rfl
    | cons n ns ih =>
      have hn := h n (List.mem_cons_self n ns)
      have hrest : ∀ m ∈ ns, validDT m.created = true ∧ validDT m.updated = true :=
        fun m hm => h m (List.mem_cons_of_mem n hm)
      simp only [List.map_cons, load_notes_list,
        load_note_save_note n hn.1 hn.2, ih hrest]
  refine ⟨main, ?_⟩
  intro ns hns
  rw [main] at hns
  cases hns
  rfl

/-- A concrete valid note used by witnesses (leap-day timestamp with a
non-zero microsecond field, updated timestamp with microsecond zero). -/
def sampleNote : Note :=
  { title := "gAAAAABtitle", content := "gAAAAABbody",
    created := ⟨2024, 2, 29, 12, 34, 56, 789000⟩,
    updated := ⟨2024, 3, 1, 0, 0, 0, 0⟩,
    read_only := true }

/-- C8 witness: the concrete two-element list round-trips. -/
theorem save_load_roundtrip_witness :
    load_notes_from_file (NotesFile.document (save_notes_to_file [sampleNote])) =
      Except.ok [sampleNote] :=
  (save_load_roundtrip [sampleNote] (by decide)).1

/-- A malformed record used as a counterexample: the "title" key is missing
(well-formed otherwise). -/
def badRaw : RawNote :=
  ⟨none, some "x", some "2024-01-01T00:00:00", some "2024-01-01T00:00:00", some false⟩

/-- C9 counterexample: a document holding one well-formed record followed by
one record with a missing "title" key.  The claim says the malformed record
is skipped and the well-formed one returned; the source has no per-record
handling, so the whole load aborts with the record's KeyError instead. -/
theorem load_notes_abort_counterexample :
    load_note (save_note sampleNote) = Except.ok sampleNote ∧
    load_notes_from_file (NotesFile.document [save_note sampleNote, badRaw]) =
      Except.error "KeyError: title" := by
  constructor
  · exact load_note_save_note sampleNote (by decide) (by decide)
  · show load_notes_list [save_note sampleNote, badRaw] = Except.error "KeyError: title"
    simp only [load_notes_list, load_note_save_note sampleNote (by decide) (by decide)]
    rfl

/-- C9 (amended): a missing notes file loads as the empty list; an
individually malformed record is not skipped — it aborts the whole load with
that record's error, however many well-formed records precede or follow it;
the only tolerated omission is a missing `read_only` key, which defaults to
false. -/
theorem load_notes_missing_file_and_abort :
    load_notes_from_file NotesFile.absent = Except.ok [] ∧
    (∀ (pre post : List RawNote) (r : RawNote) (e : String),
      (∀ x ∈ pre, ∃ n, load_note x = Except.ok n) →
      load_note r = Except.error e →
      load_notes_from_file (NotesFile.document (pre ++ r :: post)) = Except.error e) ∧
    (∀ (t c : String) (d1 d2 : DateTime), validDT d1 = true → validDT d2 = true →
      load_note ⟨some t, some c, some (isoformat d1), some (isoformat d2), none⟩ =
        Except.ok ⟨t, c, d1, d2, false⟩) := by
  refine ⟨rfl, ?_, ?_⟩
  · intro pre post r e hpre hr
    show load_notes_list (pre ++ r :: post) = Except.error e
    induction pre with
    | nil => simp [load_notes_list, hr]
    | cons x xs ih =>
      obtain ⟨n, hn⟩ := hpre x (List.mem_cons_self x xs)
      have ih2 := ih (fun y hy => hpre y (List.mem_cons_of_mem x hy))
      simp [load_notes_list, hn, ih2]
  · intro t c d1 d2 h1 h2
    rw [load_note_fields t c d1 d2 none h1 h2]
    rfl

/-- C9 witness: the amended abort behaviour at a concrete document. -/
theorem load_notes_missing_file_and_abort_witness :
    load_notes_from_file (NotesFile.document ([save_note sampleNote] ++ badRaw :: [])) =
      Except.error "KeyError: title" := by
  refine (load_notes_missing_file_and_abort).2.1 [save_note sampleNote] [] badRaw
    "KeyError: title" ?_ rfl
  intro x hx
  rw [List.mem_singleton] at hx
  subst hx
  exact ⟨sampleNote, load_note_save_note sampleNote (by decide) (by decide)⟩

/-- Python `str.strip()` (no argument): remove leading and trailing
whitespace.  Used on the editor text in `close_notepad` (src/note.py line
705). -/
def pyStrip (s : String) : String :=
  String.mk (((s.data.dropWhile Char.isWhitespace).reverse.dropWhile
    Char.isWhitespace).reverse)

/-- Split a character list at newline characters (helper for
`pySplitlines`). -/
def splitOnNl : List Char → List (List Char)
  | [] => [[]]
  | c :: cs =>
    if c = '\n' then [] :: splitOnNl cs
    else
      match splitOnNl cs with
      | [] => [[c]]
      | h :: t => (c :: h) :: t

/-- Python `str.splitlines()` restricted to the newline character (the text
comes from the plain-text editor): empty string gives no lines, and a
trailing newline produces no trailing empty line. -/
def pySplitlines (s : String) : List String :=
  if s.data = [] then []
  else
    let parts := (splitOnNl s.data).map String.mk
    if s.data.getLast? = some '\n' then parts.dropLast else parts

/-- Join lines with newlines (Python `"\n".join`). -/
def joinNl (lines : List String) : String :=
  String.mk (List.intercalate ['\n'] (lines.map String.data))

/-- Embedding of `close_notepad`, src/note.py lines 700-729, restricted to its effect on
the note list (`self.notes`): a read-only editor closes without touching any
note; else the text is stripped; if nothing remains no note is created or
modified; otherwise the first line becomes the title and the stripped
remainder the content, both encrypted, and either a new note is appended
(`current_note_index` is `none`) or the indexed note's title, content and
`updated` fields are replaced. -/
def close_notepad (enc : String → String) (readOnly : Bool) (text : String)
    (idx : Option Nat) (notes : List Note) (now : DateTime) : List Note :=
  if readOnly then notes
  else
    let full := pyStrip text
    if full = "" then notes
    else
      let lines := pySplitlines full
      let title := lines.headD ""
      let body := if lines.length > 1 then pyStrip (joinNl (lines.drop 1)) else ""
      match idx with
      | none =>
        notes ++ [⟨enc title, enc body, now, now, false⟩]
      | some i =>
        match notes.get? i with
        | none => notes
        | some n =>
          notes.set i { n with title := enc title, content := enc body, updated := now }

/-- C10: closing the editor modifies no note when the editor is read-only or
the composed text is empty or whitespace-only: the note list is returned as
it was — nothing is appended and every existing record keeps all its
fields. -/
theorem close_notepad_no_modification (enc : String → String) (readOnly : Bool)
    (text : String) (idx : Option Nat) (notes : List Note) (now : DateTime)
    (h : readOnly = true ∨ ∀ c ∈ text.data, c.isWhitespace = true) :
    close_notepad enc readOnly text idx notes now = notes := by
  rcases h with h | h
  · simp [close_notepad, h]
  · have h1 : text.data.dropWhile Char.isWhitespace = [] :=
      List.dropWhile_eq_nil_iff.mpr h
    have hstrip : pyStrip text = "" := by
      simp [pyStrip, h1]
    cases readOnly <;> simp [close_notepad, hstrip]

/-- C10 witness: a read-only close and a whitespace-only close at concrete
inputs leave the concrete note list untouched. -/
theorem close_notepad_no_modification_witness :
    close_notepad (fun s => s) true "hello" none [sampleNote] ⟨2025, 1, 1, 0, 0, 0, 0⟩ =
      [sampleNote] ∧
    close_notepad (fun s => s) false "  \n " (some 0) [sampleNote] ⟨2025, 1, 1, 0, 0, 0, 0⟩ =
      [sampleNote] := by
  constructor
  · exact close_notepad_no_modification (fun s => s) true "hello" none [sampleNote]
      ⟨2025, 1, 1, 0, 0, 0, 0⟩ (Or.inl rfl)
  · exact close_notepad_no_modification (fun s => s) false "  \n " (some 0) [sampleNote]
      ⟨2025, 1, 1, 0, 0, 0, 0⟩ (Or.inr (by decide))
